import Mathlib

/-!
Shallow embedding of the IKE_SA_INIT task of strongSwan
(src/libcharon/sa/ikev2/tasks/ike_init.c) and proofs about it.

Byte strings (the C `chunk_t`) are lists of naturals; machine enums are
naturals with their IANA / strongSwan values.  External collaborators
(proposal selection, KE instantiation, nonce generation, redirect parsing,
the crypto backend) are passed in as an explicit environment, mirroring the
interfaces the task calls.
-/

namespace IkeInit

/-- Byte string, the C chunk_t.  An empty list models a null/empty chunk. -/
abbrev Chunk := List Nat

/-- Task status values returned by the task hooks. -/
inductive Status where
  | SUCCESS
  | NEED_MORE
  | FAILED
deriving DecidableEq, Repr

/-- Limit of retries after COOKIE / INVALID_KE_PAYLOAD (MAX_RETRIES in ike_init.c). -/
def MAX_RETRIES : Nat := 5

/-- Transform type KEY_EXCHANGE_METHOD (value 4). -/
def KEY_EXCHANGE_METHOD : Nat := 4

/-- Transform type ADDITIONAL_KEY_EXCHANGE_1 (value 6, RFC 9370). -/
def ADDITIONAL_KEY_EXCHANGE_1 : Nat := 6

/-- Transform type ADDITIONAL_KEY_EXCHANGE_7 (value 12, RFC 9370). -/
def ADDITIONAL_KEY_EXCHANGE_7 : Nat := 12

/-- MAX_KEY_EXCHANGES = ADDITIONAL_KEY_EXCHANGE_7 - ADDITIONAL_KEY_EXCHANGE_1 + 2. -/
def MAX_KEY_EXCHANGES : Nat :=
  ADDITIONAL_KEY_EXCHANGE_7 - ADDITIONAL_KEY_EXCHANGE_1 + 2

/-- Notify type values (RFC 7296 and extensions). -/
def INVALID_SYNTAX : Nat := 7
def NO_PROPOSAL_CHOSEN : Nat := 14
def INVALID_KE_PAYLOAD : Nat := 17
def NAT_DETECTION_SOURCE_IP : Nat := 16388
def NAT_DETECTION_DESTINATION_IP : Nat := 16389
def COOKIE : Nat := 16390
def MULTIPLE_AUTH_SUPPORTED : Nat := 16404
def REDIRECT_SUPPORTED : Nat := 16406
def REDIRECT : Nat := 16407
def REDIRECTED_FROM : Nat := 16408
def CHILDLESS_IKEV2_SUPPORTED : Nat := 16418
def FRAGMENTATION_SUPPORTED : Nat := 16430
def SIGNATURE_HASH_ALGORITHMS : Nat := 16431
def USE_PPK : Nat := 16435

/-- Extensions enabled on the IKE_SA (enable_extension / supports_extension). -/
def EXT_IKE_FRAGMENTATION : Nat := 1
def EXT_SIGNATURE_AUTH : Nat := 2
def EXT_PPK : Nat := 3
def EXT_IKE_REDIRECTION : Nat := 4
def EXT_IKE_CHILDLESS : Nat := 5

/-- PRF_UNDEFINED, the pseudo random function value meaning none. -/
def PRF_UNDEFINED : Nat := 0

/-- A key exchange object (key_exchange_t); only its method is observable here. -/
structure KE where
  method : Nat
deriving DecidableEq, Repr

/-- A proposal: list of (transform type, algorithm) pairs. -/
structure Proposal where
  transforms : List (Nat × Nat) := []
deriving DecidableEq, Repr

/-- proposal_t.get_algorithm: the first transform of the given type, if any. -/
def Proposal.get_algorithm (p : Proposal) (t : Nat) : Option Nat :=
  (p.transforms.find? (fun tr => tr.1 = t)).map (fun tr => tr.2)

/-- proposal_t.has_transform: does the proposal contain this (type, algorithm)? -/
def Proposal.has_transform (p : Proposal) (t alg : Nat) : Bool :=
  decide ((t, alg) ∈ p.transforms)

/-- One slot of the key_exchanges array: (transform type, method, done).
A zero transform type marks an empty slot. -/
structure KeSlot where
  type : Nat := 0
  method : Nat := 0
  done : Bool := false
deriving DecidableEq, Repr

/-- The zeroed key_exchanges array (INIT zero-initializes the task struct). -/
def zeroSlots : List KeSlot := List.replicate MAX_KEY_EXCHANGES {}

/-- Keymat engine state visible to this task: the SK_d / PRF of a derivation
(read via get_skd on the old SA) and the hash algorithms fed into it.
Modelled from the spec: keymat_v2.c is not part of the sources; get_skd of a
keymat that has not derived keys yields PRF_UNDEFINED and an empty SK_d. -/
structure Keymat where
  prf_alg : Nat := PRF_UNDEFINED
  skd : Chunk := []
  hash_algorithms : List Nat := []
deriving DecidableEq, Repr

/-- The slice of an ike_sa_t that the task reads or writes. -/
structure IkeSa where
  keymat : Keymat := {}
  extensions : List Nat := []
  proposal : Option Proposal := none
  saId : Nat := 0
  state : Nat := 0
  resets : Nat := 0
deriving DecidableEq, Repr

/-- ike_sa state IKE_CONNECTING. -/
def IKE_CONNECTING : Nat := 1

/-- ike_sa_t.supports_extension. -/
def IkeSa.supports (sa : IkeSa) (ext : Nat) : Bool :=
  decide (ext ∈ sa.extensions)

/-- ike_sa_t.enable_extension (idempotent). -/
def IkeSa.enable (sa : IkeSa) (ext : Nat) : IkeSa :=
  if ext ∈ sa.extensions then sa
  else { sa with extensions := sa.extensions ++ [ext] }

/-- ike_sa_t.reset (new_spi = FALSE): modelled as an effect counter; it does
not touch any task-owned field of ike_init. -/
def IkeSa.reset (sa : IkeSa) : IkeSa :=
  { sa with resets := sa.resets + 1 }

/-- The private task state (private_ike_init_t). -/
structure St where
  initiator : Bool := true
  ike_sa : IkeSa := {}
  key_exchanges : List KeSlot := zeroSlots
  ke_index : Nat := 0
  ke_method : Nat := 0
  ke : Option KE := none
  kes : List KE := []
  ke_failed : Bool := false
  my_nonce : Chunk := []
  other_nonce : Chunk := []
  proposal : Option Proposal := none
  old_sa : Option IkeSa := none
  cookie : Chunk := []
  retry : Nat := 0
  signature_authentication : Bool := true
  follow_redirects : Bool := true
deriving DecidableEq, Repr

/-- Payloads of a message as far as this task inspects them. -/
inductive Payload where
  | sa (proposals : List Proposal)
  | ke (method : Nat) (data : Chunk)
  | nonce (n : Chunk)
  | notify (ntype : Nat) (data : Chunk)
  | other
deriving DecidableEq, Repr

/-- Environment: the external collaborators the task calls, as functions. -/
structure Env where
  /-- ike_cfg_t.select_proposal over the received proposal list. -/
  select_proposal : List Proposal → Option Proposal := fun _ => none
  /-- keymat.create_ke: some KE object when the method is supported. -/
  create_ke : Nat → Option KE := fun m => some ⟨m⟩
  /-- key_exchange_t.set_public_key outcome, keyed by method and payload data. -/
  set_pub_ok : Nat → Chunk → Bool := fun _ _ => true
  /-- hasher_algorithm_for_ikev2: is the 16-bit id a valid IKEv2 hash? -/
  ikev2Hash : Nat → Bool := fun _ => false
  /-- redirect_data_parse: (gateway, nonce) parsed from notification data. -/
  redirectParse : Chunk → Option (Nat × Chunk) := fun _ => none
  /-- ike_sa_t.handle_redirect outcome for a (possibly missing) gateway. -/
  handle_redirect : Option Nat → Bool := fun _ => false
  /-- charon.redirect.redirect_on_init: gateway to redirect a new client to. -/
  redirect_on_init : Option Nat := none
  /-- redirect_data_create gateway nonce. -/
  redirectCreate : Nat → Chunk → Chunk := fun _ _ => []
  /-- ike_cfg_t.get_algorithm KEY_EXCHANGE_METHOD. -/
  cfg_ke_method : Nat := 0
  /-- settings charon.prefer_previous_dh_group (default TRUE). -/
  prefer_previous_dh_group : Bool := true
  /-- nonce generator present and allocation succeeds. -/
  nonce_ok : Bool := true
  /-- the nonce the generator would produce (NONCE_SIZE bytes). -/
  gen_nonce : Chunk := []
  /-- build_payloads internal KE-payload serialization succeeds. -/
  build_payloads_ok : Bool := true
  /-- keymat.derive_ike_keys outcome. -/
  deriveOk : Bool := true

/-- Read a 16-bit unsigned integer in network byte order from the front of a
chunk.  The C (process_i, INVALID_KE_PAYLOAD case) does
ntohs(*((uint16_t*)data.ptr)) with no length check; the total embedding
returns none when fewer than 2 bytes are available. -/
def readBE16 : Chunk → Option Nat
  | a :: b :: _ => some (a * 256 + b)
  | _ => none

/-- Encode a 16-bit value in network byte order (htons + chunk_from_thing). -/
def encodeBE16 (v : Nat) : Chunk := [v / 256 % 256, v % 256]

/-- bio_reader loop of handle_supported_hash_algorithms: read 16-bit values
while at least 2 bytes remain (a trailing odd byte is ignored). -/
def parseUint16s : Chunk → List Nat
  | a :: b :: rest => (a * 256 + b) :: parseUint16s rest
  | _ => []

/-- memcmp over the common prefix of two chunks (length min(len_a, len_b)),
as used by get_lower_nonce. -/
def memcmpChunks : Chunk → Chunk → Ordering
  | [], _ => .eq
  | _, [] => .eq
  | x :: xs, y :: ys =>
      if x < y then .lt else if y < x then .gt else memcmpChunks xs ys

/-- get_lower_nonce: my_nonce when memcmp over the common prefix is negative,
other_nonce otherwise. -/
def get_lower_nonce (st : St) : Chunk :=
  if memcmpChunks st.my_nonce st.other_nonce = .lt then st.my_nonce
  else st.other_nonce

/-- Lexicographic order on byte strings (spec side, for comparison with the
source's get_lower_nonce): a proper prefix is smaller than its extensions. -/
def lexLe : Chunk → Chunk → Bool
  | [], _ => true
  | _ :: _, [] => false
  | x :: xs, y :: ys => x < y || (x = y && lexLe xs ys)

/-- The lexicographically smaller of two byte strings (spec side). -/
def lexMin (a b : Chunk) : Chunk := if lexLe a b then a else b

/-- additional_key_exchange_required: some slot at index >= ke_index has a
non-zero transform type and is not done. -/
def additional_key_exchange_required (slots : List KeSlot) (keIndex : Nat) : Bool :=
  (slots.drop keIndex).any (fun s => s.type ≠ 0 && !s.done)

/-- Write (type, method) entries over the front of the slot array, keeping
each overwritten slot's done flag, exactly as determine_key_exchanges
assigns .type and .method of successive cells. -/
def overwriteSlots : List KeSlot → List (Nat × Nat) → List KeSlot
  | slots, [] => slots
  | [], _ => []
  | s :: slots, (t, m) :: es => { type := t, method := m, done := s.done } :: overwriteSlots slots es

/-- The (type, method) entries determine_key_exchanges extracts from the
proposal: the primary KEY_EXCHANGE_METHOD, then every advertised
ADDITIONAL_KEY_EXCHANGE_1..7 in order. -/
def planEntries (p : Proposal) : List (Nat × Nat) :=
  (KEY_EXCHANGE_METHOD, (p.get_algorithm KEY_EXCHANGE_METHOD).getD 0) ::
  (List.range 7).filterMap (fun j =>
    (p.get_algorithm (ADDITIONAL_KEY_EXCHANGE_1 + j)).map
      (fun a => (ADDITIONAL_KEY_EXCHANGE_1 + j, a)))

/-- determine_key_exchanges: fill the slot array from the proposal. -/
def determine_key_exchanges (slots : List KeSlot) (p : Proposal) : List KeSlot :=
  overwriteSlots slots (planEntries p)

/-- Mark slot i done (the this->key_exchanges[this->ke_index++].done = TRUE
assignment of key_exchange_done). -/
def markDone (slots : List KeSlot) (i : Nat) : List KeSlot :=
  match slots.get? i with
  | some s => slots.set i { s with done := true }
  | none => slots

/-- handle_supported_hash_algorithms: feed every parsed 16-bit identifier that
is a valid IKEv2 hash into the keymat; enable EXT_SIGNATURE_AUTH iff at
least one was added. -/
def handle_supported_hash_algorithms (env : Env) (km : Keymat) (sa : IkeSa)
    (data : Chunk) : Keymat × IkeSa :=
  let valid := (parseUint16s data).filter env.ikev2Hash
  let km := { km with hash_algorithms := km.hash_algorithms ++ valid }
  let sa := if valid.isEmpty then sa else sa.enable EXT_SIGNATURE_AUTH
  (km, sa)

/-- The NOTIFY dispatch of process_payloads. -/
def handle_notify (env : Env) (st : St) (t : Nat) (data : Chunk) : St :=
  if t = FRAGMENTATION_SUPPORTED then
    { st with ike_sa := st.ike_sa.enable EXT_IKE_FRAGMENTATION }
  else if t = SIGNATURE_HASH_ALGORITHMS then
    if st.signature_authentication then
      let r := handle_supported_hash_algorithms env st.ike_sa.keymat st.ike_sa data
      { st with ike_sa := { r.2 with keymat := r.1 } }
    else st
  else if t = USE_PPK then
    if st.old_sa = none then { st with ike_sa := st.ike_sa.enable EXT_PPK } else st
  else if t = REDIRECTED_FROM then
    -- on a parse failure the case breaks; on success it falls through into
    -- the REDIRECT_SUPPORTED case
    match env.redirectParse data with
    | none => st
    | some _ =>
        if st.old_sa = none then
          { st with ike_sa := st.ike_sa.enable EXT_IKE_REDIRECTION }
        else st
  else if t = REDIRECT_SUPPORTED then
    if st.old_sa = none then
      { st with ike_sa := st.ike_sa.enable EXT_IKE_REDIRECTION }
    else st
  else if t = CHILDLESS_IKEV2_SUPPORTED then
    if st.initiator && st.old_sa = none then
      { st with ike_sa := st.ike_sa.enable EXT_IKE_CHILDLESS }
    else st
  else st

/-- process_sa_payload, without the responder alternative-config fallback
(charon.backends), which no claim depends on: select a proposal from the
received list. -/
def process_sa_payload (env : Env) (st : St) (proposals : List Proposal) : St :=
  { st with proposal := env.select_proposal proposals }

/-- process_ke_payload: check the received method against the negotiated slot,
create the KE object as responder, and apply the peer's public value. -/
def process_ke_payload (env : Env) (st : St) (received : Nat) (data : Chunk) : St :=
  let method := ((st.key_exchanges.get? st.ke_index).getD {}).method
  if method ≠ received then { st with ke_failed := true }
  else
    let st :=
      if !st.initiator then { st with ke := env.create_ke method }
      else
        match st.ke with
        | some k => { st with ke_failed := k.method ≠ received }
        | none => st
    match st.ke with
    | some k =>
        if !st.ke_failed then { st with ke_failed := !env.set_pub_ok k.method data }
        else st
    | none => st

/-- The payload enumeration loop of process_payloads; returns the updated
state and the stashed KE payload (method, data), if any. -/
def payload_loop (env : Env) : St → Option (Nat × Chunk) → List Payload →
    St × Option (Nat × Chunk)
  | st, kepld, [] => (st, kepld)
  | st, kepld, p :: rest =>
    match p with
    | .sa proposals => payload_loop env (process_sa_payload env st proposals) kepld rest
    | .ke m d => payload_loop env { st with ke_method := m } (some (m, d)) rest
    | .nonce n => payload_loop env { st with other_nonce := n } kepld rest
    | .notify t d => payload_loop env (handle_notify env st t d) kepld rest
    | .other => payload_loop env st kepld rest

/-- process_payloads: the payload loop followed by the post-parse step
(attach proposal, build the KE plan, apply a stashed KE payload).  The
rekey SPI bookkeeping on the ike_sa id is omitted (no claim reads it). -/
def process_payloads (env : Env) (st : St) (msg : List Payload) : St :=
  let r := payload_loop env st none msg
  let st := r.1
  match st.proposal with
  | none => st
  | some p =>
      let st := { st with ike_sa := { st.ike_sa with proposal := some p } }
      let st := { st with key_exchanges := determine_key_exchanges st.key_exchanges p }
      match r.2 with
      | some (m, d) => process_ke_payload env st m d
      | none => st

/-- Arguments of a keymat.derive_ike_keys invocation, as recorded by the
embedding of derive_keys. -/
structure DeriveCall where
  kes : List KE
  nonce_i : Chunk
  nonce_r : Chunk
  saId : Nat
  prf_alg : Nat
  skd : Chunk
deriving DecidableEq, Repr

/-- derive_keys: take this->kes when populated, else a one-element list with
the current KE; obtain PRF / SK_d from the old SA's keymat when one is
given; call derive_ike_keys (outcome env.deriveOk).  Returns the success
flag and the recorded call. -/
def derive_keys (env : Env) (st : St) (oldSa : Option IkeSa)
    (nonce_i nonce_r : Chunk) : Bool × DeriveCall :=
  let kes := if st.kes.isEmpty then st.ke.toList else st.kes
  let prfSkd :=
    match oldSa with
    | some osa => (osa.keymat.prf_alg, osa.keymat.skd)
    | none => (PRF_UNDEFINED, ([] : Chunk))
  (env.deriveOk,
   { kes := kes, nonce_i := nonce_i, nonce_r := nonce_r, saId := st.ike_sa.saId,
     prf_alg := prfSkd.1, skd := prfSkd.2 })

/-- Result of key_exchange_done: status, updated state, and the derive call
performed during it, if any. -/
structure KexDoneResult where
  status : Status
  st : St
  call : Option DeriveCall
deriving Repr

/-- key_exchange_done: mark the current slot done, advance ke_index, and
decide whether to derive keys now (fresh SA: always, passing our own SA
as the old one; rekeying: only once no additional exchange is pending,
after appending the completed KE to this->kes). -/
def key_exchange_done (env : Env) (st : St) (nonce_i nonce_r : Chunk) :
    KexDoneResult :=
  let st := { st with key_exchanges := markDone st.key_exchanges st.ke_index,
                      ke_index := st.ke_index + 1 }
  let additional_ke := additional_key_exchange_required st.key_exchanges st.ke_index
  match st.old_sa with
  | some osa =>
      let st := { st with kes := st.kes ++ st.ke.toList, ke := none }
      if additional_ke then ⟨.NEED_MORE, st, none⟩
      else
        let r := derive_keys env st (some osa) nonce_i nonce_r
        if r.1 then ⟨.SUCCESS, st, some r.2⟩ else ⟨.FAILED, st, some r.2⟩
  | none =>
      let r := derive_keys env st (some st.ike_sa) nonce_i nonce_r
      if r.1 then
        ⟨if additional_ke then .NEED_MORE else .SUCCESS, st, some r.2⟩
      else ⟨.FAILED, st, some r.2⟩

/-- Result of a build hook: status, updated state, and the notifies the task
added to the outgoing message (type, data). -/
structure BuildResult where
  status : Status
  st : St
  notifies : List (Nat × Chunk)
deriving Repr

/-- The group build_i picks when no KE object exists yet: the previous group
of the rekeyed SA when configured so, else the configured group. -/
def initial_ke_method (env : Env) (st : St) : Nat :=
  match st.old_sa with
  | some osa =>
      if env.prefer_previous_dh_group then
        match osa.proposal.bind
            (fun p => p.get_algorithm KEY_EXCHANGE_METHOD) with
        | some g => g
        | none => env.cfg_ke_method
      else env.cfg_ke_method
  | none => env.cfg_ke_method

/-- The ke_method / KE-object selection step of build_i: create the KE when
none exists, or recreate it when the group changed after an
INVALID_KE_PAYLOAD; none when the method is unsupported (FAILED paths). -/
def select_ke_i (env : Env) (st : St) : Option St :=
  match st.ke with
  | none =>
      match env.create_ke (initial_ke_method env st) with
      | some k =>
          some { st with ke_method := initial_ke_method env st, ke := some k }
      | none => none
  | some k =>
      if k.method ≠ st.ke_method then
        match env.create_ke st.ke_method with
        | some k2 => some { st with ke := some k2 }
        | none => none
      else some st

/-- build_i, the initiator's first-exchange build.  The debug output, the
optional ME_CONNECTID notify (ifdef ME) and payload serialization carry no
claim-relevant state; SA/KE/Nonce payload building is summarized by
env.build_payloads_ok; the cookie notify it prepends is recorded. -/
def build_i (env : Env) (st : St) : BuildResult :=
  let st := { st with ike_sa := { st.ike_sa with state := IKE_CONNECTING } }
  if st.retry ≥ MAX_RETRIES then ⟨.FAILED, st, []⟩
  else
    match select_ke_i env st with
    | none => ⟨.FAILED, st, []⟩
    | some st =>
        if st.my_nonce.isEmpty && !env.nonce_ok then ⟨.FAILED, st, []⟩
        else
          let st := if st.my_nonce.isEmpty then { st with my_nonce := env.gen_nonce }
                    else st
          let notifies := if !st.cookie.isEmpty then [(COOKIE, st.cookie)] else []
          if !env.build_payloads_ok then ⟨.FAILED, st, notifies⟩
          else ⟨.NEED_MORE, st, notifies⟩

/-- The redirect-on-init guard of build_r. -/
def should_redirect (env : Env) (st : St) : Bool :=
  st.old_sa = none && st.ike_sa.supports EXT_IKE_REDIRECTION &&
    env.redirect_on_init.isSome

/-- build_r, the responder's first-exchange build. -/
def build_r (env : Env) (st : St) : BuildResult :=
  if st.proposal = none || st.other_nonce.length = 0 || st.my_nonce.length = 0 then
    ⟨.FAILED, st, [(NO_PROPOSAL_CHOSEN, [])]⟩
  else if should_redirect env st then
    let gw := env.redirect_on_init.getD 0
    ⟨.FAILED, st, [(REDIRECT, env.redirectCreate gw st.other_nonce)]⟩
  else
    let p := st.proposal.getD {}
    if st.ke = none || !(p.has_transform KEY_EXCHANGE_METHOD st.ke_method) then
      match p.get_algorithm KEY_EXCHANGE_METHOD with
      | some group =>
          if st.ke_method ≠ group then
            ⟨.FAILED, { st with ke_method := group },
             [(INVALID_KE_PAYLOAD, encodeBE16 group)]⟩
          else ⟨.FAILED, st, [(NO_PROPOSAL_CHOSEN, [])]⟩
      | none => ⟨.FAILED, st, [(NO_PROPOSAL_CHOSEN, [])]⟩
    else if st.ke_failed then ⟨.FAILED, st, [(NO_PROPOSAL_CHOSEN, [])]⟩
    else if !env.build_payloads_ok then ⟨.FAILED, st, [(NO_PROPOSAL_CHOSEN, [])]⟩
    else
      let r := key_exchange_done env st st.other_nonce st.my_nonce
      match r.status with
      | .FAILED => ⟨.FAILED, r.st, [(NO_PROPOSAL_CHOSEN, [])]⟩
      | .NEED_MORE => ⟨.NEED_MORE, r.st, []⟩
      | .SUCCESS => ⟨.SUCCESS, r.st, []⟩

/-- Overall result of process_i.  oobRead records that the INVALID_KE_PAYLOAD
handler would read past the end of the notification data (the C performs
an unchecked 2-byte read). -/
structure ProcResult where
  status : Status
  st : St
  call : Option DeriveCall := none
  oobRead : Bool := false
deriving Repr

/-- Outcome of the erroneous-notify scan loop at the top of process_i. -/
inductive ScanOut where
  | early (status : Status) (st : St)
  | oob (st : St)
  | through (st : St)
deriving Repr

/-- The notify scan loop of process_i: INVALID_KE_PAYLOAD and COOKIE adjust
state, bump retry and return NEED_MORE; REDIRECT (outside rekeying) is
delegated; other error notifies (type <= 16383) fail. -/
def scan_i (env : Env) (st : St) : List Payload → ScanOut
  | [] => .through st
  | .notify t d :: rest =>
      if t = INVALID_KE_PAYLOAD then
        match readBE16 d with
        | none => .oob st
        | some g =>
            let st := { st with ke_method := g }
            let st :=
              if st.old_sa = none then { st with ike_sa := st.ike_sa.reset } else st
            .early .NEED_MORE { st with retry := st.retry + 1 }
      else if t = NAT_DETECTION_SOURCE_IP || t = NAT_DETECTION_DESTINATION_IP ||
              t = MULTIPLE_AUTH_SUPPORTED then
        scan_i env st rest
      else if t = COOKIE then
        .early .NEED_MORE { st with cookie := d, ike_sa := st.ike_sa.reset,
                                    retry := st.retry + 1 }
      else if t = REDIRECT then
        if st.old_sa.isSome then scan_i env st rest
        else
          let gw := (env.redirectParse d).map (fun x => x.1)
          if env.handle_redirect gw then .early .NEED_MORE st
          else .early .FAILED st
      else if t ≤ 16383 then .early .FAILED st
      else scan_i env st rest
  | _ :: rest => scan_i env st rest

/-- process_i, the initiator's processing of the first response: the notify
scan, process_payloads, the sanity checks, then the key-derivation
trigger with initiator nonce order (my_nonce, other_nonce). -/
def process_i (env : Env) (st : St) (msg : List Payload) : ProcResult :=
  match scan_i env st msg with
  | .oob st => { status := .FAILED, st := st, oobRead := true }
  | .early s st => { status := s, st := st }
  | .through st =>
      let st := process_payloads env st msg
      if st.proposal = none || st.other_nonce.length = 0 ||
          st.my_nonce.length = 0 then
        { status := .FAILED, st := st }
      else if !((st.proposal.getD {}).has_transform KEY_EXCHANGE_METHOD
                  st.ke_method) then
        { status := .FAILED, st := st }
      else if st.ke_failed then
        { status := .FAILED, st := st }
      else
        let r := key_exchange_done env st st.my_nonce st.other_nonce
        { status := r.status, st := r.st, call := r.call }

/-- pre_process_i: discard responses carrying a duplicate COOKIE, and
validate the nonce echoed in a REDIRECT (outside rekeying). -/
def pre_process_i (env : Env) (st : St) : List Payload → Status
  | [] => .SUCCESS
  | .notify t d :: rest =>
      if t = COOKIE then
        if !st.cookie.isEmpty && st.cookie = d then .FAILED
        else pre_process_i env st rest
      else if t = REDIRECT then
        if st.old_sa.isSome then pre_process_i env st rest
        else
          match env.redirectParse d with
          | some (_, nonce) =>
              if !st.my_nonce.isEmpty && nonce = st.my_nonce then .SUCCESS
              else .FAILED
          | none => .FAILED
      else pre_process_i env st rest
  | .sa _ :: rest => pre_process_i env st rest
  | .ke _ _ :: rest => pre_process_i env st rest
  | .nonce _ :: rest => pre_process_i env st rest
  | .other :: rest => pre_process_i env st rest

/-! Theorems about the embedded task. -/

/-- Claim C9: the INVALID_KE_PAYLOAD handler of process_i reads the new group
as the first 16 bits of the notification data with no length check; the read
is well-defined exactly when at least 2 bytes are present, and for any
message whose INVALID_KE_PAYLOAD notify carries fewer than 2 bytes the
out-of-bounds branch of the total embedding is reached. -/
theorem c9_invalid_ke_read_oob (env : Env) (st : St) (d : Chunk)
    (rest : List Payload) (a b : Nat) (d2 : Chunk) (hshort : d.length < 2) :
    readBE16 d = none ∧
    (process_i env st (Payload.notify INVALID_KE_PAYLOAD d :: rest)).oobRead = true ∧
    readBE16 (a :: b :: d2) = some (a * 256 + b) ∧
    (process_i env st
      (Payload.notify INVALID_KE_PAYLOAD (a :: b :: d2) :: rest)).oobRead = false := by
  have hd : readBE16 d = none := by
    match d, hshort with
    | [], _ => rfl
    | [x], _ => rfl
  refine ⟨hd, ?_, rfl, ?_⟩
  · simp [process_i, scan_i, hd]
  · simp [process_i, scan_i, readBE16]

/-- Claim C9 witness at concrete inputs. -/
theorem c9_invalid_ke_read_oob_witness :
    readBE16 [5] = none ∧
    (process_i {} {} [Payload.notify INVALID_KE_PAYLOAD [5]]).oobRead = true ∧
    readBE16 [0, 14, 3] = some (0 * 256 + 14) ∧
    (process_i {} {} [Payload.notify INVALID_KE_PAYLOAD [0, 14, 3]]).oobRead = false :=
  c9_invalid_ke_read_oob {} {} [5] [] 0 14 [3] (by decide)

/-- Claim C10: with signature_authentication configured, a received
SIGNATURE_HASH_ALGORITHMS notify feeds every valid 16-bit IKEv2 hash
identifier into the keymat and enables EXT_SIGNATURE_AUTH iff at least one
is present, even while rekeying (old_sa set); the USE_PPK,
REDIRECT_SUPPORTED, REDIRECTED_FROM and CHILDLESS_IKEV2_SUPPORTED notifies
are suppressed while rekeying. -/
theorem c10_hash_algorithms_not_suppressed_on_rekey (env : Env) (st : St)
    (osa : IkeSa) (d : Chunk)
    (hrekey : st.old_sa = some osa)
    (hsig : st.signature_authentication = true)
    (hext : st.ike_sa.supports EXT_SIGNATURE_AUTH = false) :
    (process_payloads env st
        [Payload.notify SIGNATURE_HASH_ALGORITHMS d]).ike_sa.keymat.hash_algorithms =
      st.ike_sa.keymat.hash_algorithms ++ (parseUint16s d).filter env.ikev2Hash ∧
    ((process_payloads env st
        [Payload.notify SIGNATURE_HASH_ALGORITHMS d]).ike_sa.supports
          EXT_SIGNATURE_AUTH = true ↔
      (parseUint16s d).filter env.ikev2Hash ≠ []) ∧
    (process_payloads env st [Payload.notify USE_PPK d]).ike_sa.extensions =
      st.ike_sa.extensions ∧
    (process_payloads env st [Payload.notify REDIRECT_SUPPORTED d]).ike_sa.extensions =
      st.ike_sa.extensions ∧
    (process_payloads env st [Payload.notify REDIRECTED_FROM d]).ike_sa.extensions =
      st.ike_sa.extensions ∧
    (process_payloads env st
        [Payload.notify CHILDLESS_IKEV2_SUPPORTED d]).ike_sa.extensions =
      st.ike_sa.extensions := by
  have hmem : ¬ EXT_SIGNATURE_AUTH ∈ st.ike_sa.extensions := by
    simpa [IkeSa.supports] using hext
  rcases hpr : st.proposal with _ | p <;>
    rcases hrp : env.redirectParse d with _ | gw <;>
      by_cases hv : (parseUint16s d).filter env.ikev2Hash = [] <;>
        simp [process_payloads, payload_loop, handle_notify, process_ke_payload,
              handle_supported_hash_algorithms, hrekey, hsig, hpr, hrp, hv, hmem,
              IkeSa.enable, IkeSa.supports, USE_PPK, REDIRECT_SUPPORTED,
              REDIRECTED_FROM, CHILDLESS_IKEV2_SUPPORTED, FRAGMENTATION_SUPPORTED,
              SIGNATURE_HASH_ALGORITHMS]

/-- Fixture environment for the C10 witness: 5 is the only valid hash. -/
def env10w : Env := { ikev2Hash := fun h => h == 5 }

/-- Fixture state for the C10 witness: a rekeying (old_sa set) task. -/
def st10w : St := { old_sa := some {} }

/-- Claim C10 witness at concrete inputs. -/
theorem c10_hash_algorithms_not_suppressed_on_rekey_witness :
    (process_payloads env10w st10w
        [Payload.notify SIGNATURE_HASH_ALGORITHMS [0, 5, 0, 9]]).ike_sa.keymat.hash_algorithms =
      st10w.ike_sa.keymat.hash_algorithms ++
        (parseUint16s [0, 5, 0, 9]).filter env10w.ikev2Hash ∧
    ((process_payloads env10w st10w
        [Payload.notify SIGNATURE_HASH_ALGORITHMS [0, 5, 0, 9]]).ike_sa.supports
          EXT_SIGNATURE_AUTH = true ↔
      (parseUint16s [0, 5, 0, 9]).filter env10w.ikev2Hash ≠ []) ∧
    (process_payloads env10w st10w [Payload.notify USE_PPK [0, 5, 0, 9]]).ike_sa.extensions =
      st10w.ike_sa.extensions ∧
    (process_payloads env10w st10w
        [Payload.notify REDIRECT_SUPPORTED [0, 5, 0, 9]]).ike_sa.extensions =
      st10w.ike_sa.extensions ∧
    (process_payloads env10w st10w
        [Payload.notify REDIRECTED_FROM [0, 5, 0, 9]]).ike_sa.extensions =
      st10w.ike_sa.extensions ∧
    (process_payloads env10w st10w
        [Payload.notify CHILDLESS_IKEV2_SUPPORTED [0, 5, 0, 9]]).ike_sa.extensions =
      st10w.ike_sa.extensions :=
  c10_hash_algorithms_not_suppressed_on_rekey env10w st10w {} [0, 5, 0, 9]
    rfl rfl rfl

/-- Claim C3: once retry has reached MAX_RETRIES (each INVALID_KE_PAYLOAD or
COOKIE response having incremented retry while returning NEED_MORE), the
initiator's first-exchange build fails, and any build attempt that proceeds
(returns NEED_MORE) started with retry below MAX_RETRIES. -/
theorem c3_retry_cap (env env2 env3 env4 : Env) (st st2 st3 st4 : St)
    (dk dc : Chunk) (restk restc : List Payload)
    (hcap : st.retry ≥ MAX_RETRIES)
    (hproceed : (build_i env2 st2).status = .NEED_MORE)
    (hlen : 2 ≤ dk.length) :
    (build_i env st).status = .FAILED ∧
    st2.retry < MAX_RETRIES ∧
    (process_i env3 st3 (Payload.notify INVALID_KE_PAYLOAD dk :: restk)).status =
      .NEED_MORE ∧
    (process_i env3 st3 (Payload.notify INVALID_KE_PAYLOAD dk :: restk)).st.retry =
      st3.retry + 1 ∧
    (process_i env4 st4 (Payload.notify COOKIE dc :: restc)).status = .NEED_MORE ∧
    (process_i env4 st4 (Payload.notify COOKIE dc :: restc)).st.retry =
      st4.retry + 1 := by
  obtain ⟨a, b, tl, rfl⟩ : ∃ a b tl, dk = a :: b :: tl := by
    match dk, hlen with
    | a :: b :: tl, _ => exact ⟨a, b, tl, rfl⟩
  have hfail : ∀ (e : Env) (s : St), s.retry ≥ MAX_RETRIES →
      (build_i e s).status = .FAILED := by
    intro e s h
    simp [build_i, h]
  refine ⟨hfail env st hcap, ?_, ?_, ?_, ?_, ?_⟩
  · by_contra h
    rw [hfail env2 st2 (Nat.le_of_not_lt h)] at hproceed
    exact absurd hproceed (by simp)
  all_goals
    by_cases ho : st3.old_sa = none <;>
      simp [process_i, scan_i, readBE16, ho, COOKIE, INVALID_KE_PAYLOAD,
            NAT_DETECTION_SOURCE_IP, NAT_DETECTION_DESTINATION_IP,
            MULTIPLE_AUTH_SUPPORTED, REDIRECT]

/-- Claim C3 witness at concrete inputs. -/
theorem c3_retry_cap_witness :
    (build_i {} { retry := 5 }).status = .FAILED ∧
    ({ retry := 0 : St }).retry < MAX_RETRIES ∧
    (process_i {} {} (Payload.notify INVALID_KE_PAYLOAD [0, 14] :: [])).status =
      .NEED_MORE ∧
    (process_i {} {} (Payload.notify INVALID_KE_PAYLOAD [0, 14] :: [])).st.retry =
      ({} : St).retry + 1 ∧
    (process_i {} {} (Payload.notify COOKIE [7] :: [])).status = .NEED_MORE ∧
    (process_i {} {} (Payload.notify COOKIE [7] :: [])).st.retry =
      ({} : St).retry + 1 :=
  c3_retry_cap {} { cfg_ke_method := 14, gen_nonce := [1] } {} {}
    { retry := 5 } { retry := 0 } {} {} [0, 14] [7] [] []
    (by decide) (by decide) (by decide)

/-- select_ke_i only touches ke and ke_method. -/
lemma select_ke_i_frame (env : Env) (st st' : St)
    (h : select_ke_i env st = some st') :
    st'.my_nonce = st.my_nonce ∧ st'.cookie = st.cookie ∧
    st'.retry = st.retry ∧ st'.ike_sa = st.ike_sa := by
  unfold select_ke_i at h
  split at h
  · split at h
    · obtain rfl := Option.some.inj h
      simp
    · exact absurd h (by simp)
  · split at h
    · split at h
      · obtain rfl := Option.some.inj h
        simp
      · exact absurd h (by simp)
    · obtain rfl := Option.some.inj h
      simp

/-- build_i either leaves my_nonce alone or fills an unset my_nonce from the
nonce generator. -/
lemma build_i_nonce (env : Env) (st : St) :
    (build_i env st).st.my_nonce = st.my_nonce ∨
    (st.my_nonce = [] ∧ (build_i env st).st.my_nonce = env.gen_nonce) := by
  by_cases hr : st.retry ≥ MAX_RETRIES
  · left; simp [build_i, hr]
  · rcases hsel : select_ke_i env
        { st with ike_sa := { st.ike_sa with state := IKE_CONNECTING } }
        with _ | st'
    · left; simp [build_i, hr, hsel]
    · obtain ⟨hn, -, -, -⟩ := select_ke_i_frame _ _ _ hsel
      by_cases hemp : st'.my_nonce = []
      · have he : st.my_nonce = [] := by rw [← hn]; exact hemp
        by_cases hno : env.nonce_ok
        · right
          refine ⟨he, ?_⟩
          by_cases hbp : env.build_payloads_ok <;>
            · simp [build_i, hr, hsel, hno, hbp]
              simp [hemp]
        · left
          simp [build_i, hr, hsel, hno, hemp]
          exact he
      · left
        by_cases hbp : env.build_payloads_ok <;>
          · simp [build_i, hr, hsel, hemp, hbp]
            exact hn

/-- When build_i returns NEED_MORE for an unset my_nonce, the nonce it stored
is the generated one. -/
lemma build_i_needmore_gen (env : Env) (st : St)
    (h : (build_i env st).status = .NEED_MORE) (he : st.my_nonce = []) :
    (build_i env st).st.my_nonce = env.gen_nonce := by
  by_cases hr : st.retry ≥ MAX_RETRIES
  · simp [build_i, hr] at h
  · rcases hsel : select_ke_i env
        { st with ike_sa := { st.ike_sa with state := IKE_CONNECTING } }
        with _ | st'
    · simp [build_i, hr, hsel] at h
    · obtain ⟨hn, -, -, -⟩ := select_ke_i_frame _ _ _ hsel
      have hemp : st'.my_nonce = [] := by rw [hn]; exact he
      by_cases hno : env.nonce_ok
      · by_cases hbp : env.build_payloads_ok
        · simp [build_i, hr, hsel, hemp, hno, hbp]
        · simp [build_i, hr, hsel, hemp, hno, hbp] at h
      · simp [build_i, hr, hsel, hemp, hno] at h

/-- Claim C8: my_nonce is allocated exactly once per attempt: build_i
generates a nonce only when my_nonce is unset and otherwise preserves it,
and the COOKIE / INVALID_KE_PAYLOAD retry paths of process_i (NEED_MORE,
retry incremented) leave my_nonce unchanged. -/
theorem c8_nonce_allocated_once (env env2 env3 env4 : Env) (st st2 st3 st4 : St)
    (dk dc : Chunk) (restk restc : List Payload)
    (hpres : st.my_nonce ≠ [])
    (hn : (build_i env2 st2).status = .NEED_MORE)
    (hlen : 2 ≤ dk.length) :
    (build_i env st).st.my_nonce = st.my_nonce ∧
    (build_i env2 st2).st.my_nonce =
      (if st2.my_nonce = [] then env2.gen_nonce else st2.my_nonce) ∧
    (process_i env3 st3 (Payload.notify INVALID_KE_PAYLOAD dk :: restk)).st.my_nonce =
      st3.my_nonce ∧
    (process_i env3 st3 (Payload.notify INVALID_KE_PAYLOAD dk :: restk)).status =
      .NEED_MORE ∧
    (process_i env3 st3 (Payload.notify INVALID_KE_PAYLOAD dk :: restk)).st.retry =
      st3.retry + 1 ∧
    (process_i env4 st4 (Payload.notify COOKIE dc :: restc)).st.my_nonce =
      st4.my_nonce ∧
    (process_i env4 st4 (Payload.notify COOKIE dc :: restc)).status = .NEED_MORE ∧
    (process_i env4 st4 (Payload.notify COOKIE dc :: restc)).st.retry =
      st4.retry + 1 := by
  obtain ⟨a, b, tl, rfl⟩ : ∃ a b tl, dk = a :: b :: tl := by
    match dk, hlen with
    | a :: b :: tl, _ => exact ⟨a, b, tl, rfl⟩
  refine ⟨?_, ?_, ?_⟩
  · rcases build_i_nonce env st with h | ⟨h, -⟩
    · exact h
    · exact absurd h hpres
  · by_cases he : st2.my_nonce = []
    · simpa [he] using build_i_needmore_gen env2 st2 hn he
    · rcases build_i_nonce env2 st2 with h | ⟨h, -⟩
      · simpa [he] using h
      · exact absurd h he
  all_goals
    by_cases ho : st3.old_sa = none <;>
      simp [process_i, scan_i, readBE16, ho, COOKIE, INVALID_KE_PAYLOAD,
            NAT_DETECTION_SOURCE_IP, NAT_DETECTION_DESTINATION_IP,
            MULTIPLE_AUTH_SUPPORTED, REDIRECT]

/-- Claim C8 witness at concrete inputs. -/
theorem c8_nonce_allocated_once_witness :
    (build_i {} { my_nonce := [3] }).st.my_nonce = ({ my_nonce := [3] } : St).my_nonce ∧
    (build_i { gen_nonce := [4] } {}).st.my_nonce =
      (if ({} : St).my_nonce = [] then ({ gen_nonce := [4] } : Env).gen_nonce
       else ({} : St).my_nonce) ∧
    (process_i {} {} (Payload.notify INVALID_KE_PAYLOAD [0, 14] :: [])).st.my_nonce =
      ({} : St).my_nonce ∧
    (process_i {} {} (Payload.notify INVALID_KE_PAYLOAD [0, 14] :: [])).status =
      .NEED_MORE ∧
    (process_i {} {} (Payload.notify INVALID_KE_PAYLOAD [0, 14] :: [])).st.retry =
      ({} : St).retry + 1 ∧
    (process_i {} {} (Payload.notify COOKIE [7] :: [])).st.my_nonce =
      ({} : St).my_nonce ∧
    (process_i {} {} (Payload.notify COOKIE [7] :: [])).status = .NEED_MORE ∧
    (process_i {} {} (Payload.notify COOKIE [7] :: [])).st.retry =
      ({} : St).retry + 1 :=
  c8_nonce_allocated_once {} { gen_nonce := [4] } {} {} { my_nonce := [3] } {} {} {}
    [0, 14] [7] [] [] (by decide) (by decide) (by decide)

/-- pre_process_i fails on the first COOKIE notify matching the stored,
non-empty cookie, provided no REDIRECT notify precedes it. -/
theorem c7_duplicate_cookie (env : Env) (st : St) (pre rest : List Payload)
    (d : Chunk) (hck : st.cookie = d) (hne : st.cookie ≠ [])
    (hpre : ∀ p ∈ pre, ∀ d2, p ≠ Payload.notify REDIRECT d2) :
    pre_process_i env st (pre ++ Payload.notify COOKIE d :: rest) = .FAILED := by
  subst hck
  induction pre with
  | nil =>
      have : st.cookie.isEmpty = false := by
        simpa using hne
      simp [pre_process_i, this]
  | cons p pre ih =>
      have hpre' : ∀ q ∈ pre, ∀ d2, q ≠ Payload.notify REDIRECT d2 :=
        fun q hq => hpre q (List.mem_cons_of_mem p hq)
      rcases p with prs | ⟨m, pd⟩ | n | ⟨t, d2⟩ | _
      · simpa [pre_process_i] using ih hpre'
      · simpa [pre_process_i] using ih hpre'
      · simpa [pre_process_i] using ih hpre'
      · have hnr : t ≠ REDIRECT := by
          intro h
          exact absurd rfl (h ▸ hpre _ (List.mem_cons_self _ _) d2)
        by_cases hc : t = COOKIE
        · subst hc
          simp only [pre_process_i, List.cons_append, if_true, eq_self_iff_true]
          split
          · rfl
          · simpa using ih hpre'
        · simpa [pre_process_i, hc, hnr] using ih hpre'
      · simpa [pre_process_i] using ih hpre'

/-- A message in which a valid REDIRECT notify precedes the duplicate COOKIE
notify makes pre_process_i return SUCCESS, not FAILED, refuting claim C7 as
stated. -/
theorem c7_duplicate_cookie_counterexample :
    ({ cookie := [1, 2], my_nonce := [9, 9] } : St).cookie = [1, 2] ∧
    ({ cookie := [1, 2], my_nonce := [9, 9] } : St).cookie ≠ [] ∧
    Payload.notify COOKIE [1, 2] ∈
      [Payload.notify REDIRECT [9, 9], Payload.notify COOKIE [1, 2]] ∧
    pre_process_i { redirectParse := fun d => some (1, d) }
      { cookie := [1, 2], my_nonce := [9, 9] }
      [Payload.notify REDIRECT [9, 9], Payload.notify COOKIE [1, 2]] ≠
      .FAILED := by
  refine ⟨rfl, by decide, by decide, ?_⟩
  decide

/-- Claim C7 (amended) witness at concrete inputs. -/
theorem c7_duplicate_cookie_witness :
    pre_process_i {} { cookie := [1, 2] }
      ([] ++ Payload.notify COOKIE [1, 2] :: []) = .FAILED :=
  c7_duplicate_cookie {} { cookie := [1, 2] } [] [] [1, 2] rfl (by decide)
    (by simp)

/-- Claim C4 (amended): in the responder's first-exchange build, when the KE
object is missing or the selected proposal lacks ke_method, and moreover the
proposal's negotiated KEY_EXCHANGE_METHOD group exists and differs from
ke_method, the response carries exactly one INVALID_KE_PAYLOAD notify whose
data is the desired group as a 16-bit unsigned integer in network byte
order, ke_method is updated to that group, and the build fails. -/
theorem c4_invalid_ke_notify (env : Env) (st : St) (p : Proposal) (group : Nat)
    (hp : st.proposal = some p)
    (hn1 : st.other_nonce.length ≠ 0) (hn2 : st.my_nonce.length ≠ 0)
    (hnr : should_redirect env st = false)
    (hke : st.ke = none ∨ p.has_transform KEY_EXCHANGE_METHOD st.ke_method = false)
    (hg : p.get_algorithm KEY_EXCHANGE_METHOD = some group)
    (hd : st.ke_method ≠ group) :
    (build_r env st).status = .FAILED ∧
    (build_r env st).notifies = [(INVALID_KE_PAYLOAD, encodeBE16 group)] ∧
    (build_r env st).st.ke_method = group := by
  rcases hke with h | h <;>
    simp [build_r, hp, hn1, hn2, hnr, hg, hd, h]

/-- Fixture responder state for C4: proposal demands group 14, no KE object,
ke_method already 14 (peer sent no or an unsupported KE payload). -/
def st4c : St := { initiator := false, proposal := some ⟨[(4, 14)]⟩, ke := none, ke_method := 14, my_nonce := [1], other_nonce := [2] }

/-- Fixture responder state for the C4 witness: ke_method 5 differs from the
proposal's group 14. -/
def st4w : St := { st4c with ke_method := 5 }

/-- A state in which the KE object is missing but ke_method already equals
the proposal's group: the response then carries NO_PROPOSAL_CHOSEN and no
INVALID_KE_PAYLOAD notify, refuting claim C4 as stated. -/
theorem c4_invalid_ke_notify_counterexample :
    st4c.ke = none ∧
    (build_r {} st4c).status = .FAILED ∧
    (build_r {} st4c).notifies = [(NO_PROPOSAL_CHOSEN, [])] ∧
    ((build_r {} st4c).notifies.all (fun n => n.1 ≠ INVALID_KE_PAYLOAD)) = true := by
  refine ⟨rfl, ?_, ?_, ?_⟩ <;> decide

/-- Claim C4 (amended) witness at concrete inputs. -/
theorem c4_invalid_ke_notify_witness :
    (build_r {} st4w).status = .FAILED ∧
    (build_r {} st4w).notifies = [(INVALID_KE_PAYLOAD, encodeBE16 14)] ∧
    (build_r {} st4w).st.ke_method = 14 :=
  c4_invalid_ke_notify {} st4w ⟨[(4, 14)]⟩ 14 rfl (by decide) (by decide)
    (by decide) (Or.inl rfl) (by decide) (by decide)

/-- memcmp over the common prefix of equal lists is eq. -/
lemma memcmpChunks_self (a : Chunk) : memcmpChunks a a = .eq := by
  induction a with
  | nil => rfl
  | cons x xs ih => simp [memcmpChunks, ih]

/-- Core comparison fact: whenever the two chunks are equal or neither is a
prefix of the other, the memcmp-based selection picks the lexicographic
minimum and is invariant under swapping the arguments. -/
lemma memcmp_min_core : ∀ a b : Chunk,
    a = b ∨ (a.isPrefixOf b = false ∧ b.isPrefixOf a = false) →
    (if memcmpChunks a b = .lt then a else b) = lexMin a b ∧
    (if memcmpChunks b a = .lt then b else a) =
      (if memcmpChunks a b = .lt then a else b)
  | a, _, .inl rfl => by
      simp [memcmpChunks_self, lexMin]
  | [], b, .inr h => by
      simp [List.isPrefixOf] at h
  | a :: as, [], .inr h => by
      simp [List.isPrefixOf] at h
  | x :: xs, y :: ys, .inr h => by
      rcases Nat.lt_trichotomy x y with hxy | hxy | hxy
      · have h1 : memcmpChunks (x :: xs) (y :: ys) = .lt := by
          simp [memcmpChunks, hxy]
        have h2 : memcmpChunks (y :: ys) (x :: xs) = .gt := by
          simp [memcmpChunks, hxy, Nat.lt_asymm hxy]
        simp [h1, h2, lexMin, lexLe, hxy]
      · subst hxy
        have hp : xs = ys ∨ (xs.isPrefixOf ys = false ∧ ys.isPrefixOf xs = false) := by
          right
          simpa [List.isPrefixOf] using h
        obtain ⟨ih1, ih2⟩ := memcmp_min_core xs ys hp
        have hm : memcmpChunks (x :: xs) (x :: ys) = memcmpChunks xs ys := by
          simp [memcmpChunks]
        have hm' : memcmpChunks (x :: ys) (x :: xs) = memcmpChunks ys xs := by
          simp [memcmpChunks]
        have hlex : lexMin (x :: xs) (x :: ys) = x :: lexMin xs ys := by
          by_cases hlc : lexLe xs ys <;> simp [lexMin, lexLe, hlc]
        constructor
        · rw [hm, hlex, ← ih1, ← apply_ite (fun l : Chunk => x :: l)]
        · rw [hm, hm', ← apply_ite (fun l : Chunk => x :: l),
              ← apply_ite (fun l : Chunk => x :: l), ih2]
      · have h1 : memcmpChunks (x :: xs) (y :: ys) = .gt := by
          simp [memcmpChunks, hxy, Nat.lt_asymm hxy]
        have h2 : memcmpChunks (y :: ys) (x :: xs) = .lt := by
          simp [memcmpChunks, hxy]
        have hlex : lexLe (x :: xs) (y :: ys) = false := by
          simp [lexLe, hxy, Nat.lt_asymm hxy, Nat.ne_of_gt hxy]
        simp [h1, h2, lexMin, hlex]

/-- Claim C5 (amended): for nonces of 16 to 256 bytes, provided neither is a
proper prefix of the other, get_lower_nonce returns the lexicographically
smaller nonce and both ends (my_nonce and other_nonce swapped) report the
same byte string. -/
theorem c5_lower_nonce (a b : Chunk) (st st2 : St)
    (ha1 : 16 ≤ a.length) (ha2 : a.length ≤ 256)
    (hb1 : 16 ≤ b.length) (hb2 : b.length ≤ 256)
    (hnp : a = b ∨ (a.isPrefixOf b = false ∧ b.isPrefixOf a = false))
    (h1 : st.my_nonce = a) (h2 : st.other_nonce = b)
    (h3 : st2.my_nonce = b) (h4 : st2.other_nonce = a) :
    get_lower_nonce st = lexMin a b ∧
    get_lower_nonce st2 = get_lower_nonce st := by
  obtain ⟨hmin, hsym⟩ := memcmp_min_core a b hnp
  unfold get_lower_nonce
  rw [h1, h2, h3, h4]
  exact ⟨hmin, hsym⟩

/-- One nonce a proper prefix of the other: get_lower_nonce then returns the
longer (lexicographically larger) nonce and the two ends disagree, refuting
claim C5 as stated. -/
theorem c5_lower_nonce_counterexample :
    get_lower_nonce { my_nonce := List.replicate 16 1, other_nonce := List.replicate 16 1 ++ [2] } =
      List.replicate 16 1 ++ [2] ∧
    lexMin (List.replicate 16 1) (List.replicate 16 1 ++ [2]) = List.replicate 16 1 ∧
    List.replicate 16 1 ≠ List.replicate 16 1 ++ [2] ∧
    get_lower_nonce { my_nonce := List.replicate 16 1 ++ [2], other_nonce := List.replicate 16 1 } =
      List.replicate 16 1 := by
  refine ⟨?_, ?_, ?_, ?_⟩ <;> decide

/-- Claim C5 (amended) witness at concrete inputs. -/
theorem c5_lower_nonce_witness :
    get_lower_nonce { my_nonce := List.replicate 16 3, other_nonce := List.replicate 16 4 } =
      lexMin (List.replicate 16 3) (List.replicate 16 4) ∧
    get_lower_nonce { my_nonce := List.replicate 16 4, other_nonce := List.replicate 16 3 } =
      get_lower_nonce { my_nonce := List.replicate 16 3, other_nonce := List.replicate 16 4 } :=
  c5_lower_nonce (List.replicate 16 3) (List.replicate 16 4) _ _
    (by decide) (by decide) (by decide) (by decide)
    (Or.inr (by decide)) rfl rfl rfl rfl

/-- additional_key_exchange_required holds iff some slot at an index at or
beyond the cursor has a non-zero type and is not done. -/
lemma additional_iff (slots : List KeSlot) (i : Nat) :
    additional_key_exchange_required slots i = true ↔
    ∃ j s, i ≤ j ∧ slots.get? j = some s ∧ s.type ≠ 0 ∧ s.done = false := by
  unfold additional_key_exchange_required
  rw [List.any_eq_true]
  constructor
  · rintro ⟨s, hs, hp⟩
    obtain ⟨j, hj⟩ := List.mem_iff_get?.mp hs
    refine ⟨i + j, s, Nat.le_add_right i j, ?_, ?_⟩
    · rw [← List.get?_drop]; exact hj
    · simpa [Bool.and_eq_true] using hp
  · rintro ⟨j, s, hij, hj, ht, hd⟩
    refine ⟨s, ?_, by simp [ht, hd]⟩
    apply List.mem_iff_get?.mpr
    refine ⟨j - i, ?_⟩
    rw [List.get?_drop]
    rwa [Nat.add_sub_cancel' hij]

/-- Dissection of key_exchange_done: updated plan and cursor, the exact
correspondence of its status with the pending-exchange check, and when a
derivation call happens. -/
lemma key_exchange_done_parts (env : Env) (st : St) (ni nr : Chunk)
    (hok : env.deriveOk = true) :
    (key_exchange_done env st ni nr).st.key_exchanges =
      markDone st.key_exchanges st.ke_index ∧
    (key_exchange_done env st ni nr).st.ke_index = st.ke_index + 1 ∧
    ((key_exchange_done env st ni nr).status = .SUCCESS ↔
      additional_key_exchange_required (markDone st.key_exchanges st.ke_index)
        (st.ke_index + 1) = false) ∧
    ((key_exchange_done env st ni nr).status = .NEED_MORE ↔
      additional_key_exchange_required (markDone st.key_exchanges st.ke_index)
        (st.ke_index + 1) = true) ∧
    ((key_exchange_done env st ni nr).status = .SUCCESS →
      (key_exchange_done env st ni nr).call.isSome = true) ∧
    (st.old_sa.isSome = true →
      (key_exchange_done env st ni nr).status = .NEED_MORE →
      (key_exchange_done env st ni nr).call = none) := by
  rcases hosa : st.old_sa with _ | osa <;>
    by_cases hA : additional_key_exchange_required
        (markDone st.key_exchanges st.ke_index) (st.ke_index + 1) = true
  · simp [key_exchange_done, derive_keys, hosa, hA, hok]
  · simp only [Bool.not_eq_true] at hA
    simp [key_exchange_done, derive_keys, hosa, hA, hok]
  · simp [key_exchange_done, derive_keys, hosa, hA, hok]
  · simp only [Bool.not_eq_true] at hA
    simp [key_exchange_done, derive_keys, hosa, hA, hok]

/-- Claim C6: additional_key_exchange_required is true iff some slot at index
at or beyond ke_index has a non-zero transform type and is not done; the
trigger returns SUCCESS exactly when no such slot remains afterwards (then
every non-zero slot is done and a derivation was performed in that call),
returns NEED_MORE exactly while one remains, and during rekeying the
NEED_MORE rounds perform no derivation. -/
theorem c6_success_iff_plan_done (env : Env) (st : St) (ni nr : Chunk)
    (hlen : st.key_exchanges.length = MAX_KEY_EXCHANGES)
    (hidx : st.ke_index < MAX_KEY_EXCHANGES)
    (hinv : ∀ j s, j < st.ke_index → st.key_exchanges.get? j = some s →
      s.done = true)
    (hok : env.deriveOk = true) :
    (additional_key_exchange_required st.key_exchanges st.ke_index = true ↔
      ∃ j s, st.ke_index ≤ j ∧ st.key_exchanges.get? j = some s ∧
        s.type ≠ 0 ∧ s.done = false) ∧
    ((key_exchange_done env st ni nr).status = .SUCCESS ↔
      additional_key_exchange_required
        (key_exchange_done env st ni nr).st.key_exchanges
        (key_exchange_done env st ni nr).st.ke_index = false) ∧
    ((key_exchange_done env st ni nr).status = .NEED_MORE ↔
      additional_key_exchange_required
        (key_exchange_done env st ni nr).st.key_exchanges
        (key_exchange_done env st ni nr).st.ke_index = true) ∧
    ((key_exchange_done env st ni nr).status = .SUCCESS →
      (∀ j s, (key_exchange_done env st ni nr).st.key_exchanges.get? j = some s →
        s.type ≠ 0 → s.done = true) ∧
      (key_exchange_done env st ni nr).call.isSome = true) ∧
    (st.old_sa.isSome = true →
      (key_exchange_done env st ni nr).status = .NEED_MORE →
      (key_exchange_done env st ni nr).call = none) := by
  obtain ⟨hkx, hki, hsucc, hmore, hcall, hrekey⟩ :=
    key_exchange_done_parts env st ni nr hok
  have hlt : st.ke_index < st.key_exchanges.length := by
    rw [hlen]; exact hidx
  obtain ⟨s0, hs0⟩ : ∃ s0, st.key_exchanges.get? st.ke_index = some s0 :=
    ⟨_, List.get?_eq_get hlt⟩
  have hmark : markDone st.key_exchanges st.ke_index =
      st.key_exchanges.set st.ke_index { s0 with done := true } := by
    unfold markDone
    rw [hs0]
  refine ⟨additional_iff _ _, by rw [hkx, hki]; exact hsucc,
    by rw [hkx, hki]; exact hmore, ?_, hrekey⟩
  intro hs
  refine ⟨?_, hcall hs⟩
  have hA : additional_key_exchange_required
      (markDone st.key_exchanges st.ke_index) (st.ke_index + 1) = false :=
    (hsucc.mp hs)
  intro j s hj ht
  rw [hkx, hmark] at hj
  rcases Nat.lt_trichotomy j st.ke_index with hlt' | rfl | hgt
  · exact hinv j s hlt' (by rwa [List.get?_set_ne _ _ (Nat.ne_of_lt hlt').symm] at hj)
  · rw [List.get?_set_eq_of_lt _ hlt] at hj
    cases hj
    rfl
  · have hmem : s ∈ (markDone st.key_exchanges st.ke_index).drop (st.ke_index + 1) := by
      apply List.get?_mem (n := j - (st.ke_index + 1))
      rw [List.get?_drop, Nat.add_sub_cancel' hgt, hmark]
      exact hj
    have hall : ∀ x ∈ (markDone st.key_exchanges st.ke_index).drop (st.ke_index + 1),
        ¬x.type = 0 → x.done = true := by
      simpa [additional_key_exchange_required] using hA
    exact hall s hmem ht

/-- Fixture state for the C6 witness: a single-KE plan, cursor at 0. -/
def st6w : St := { key_exchanges := { type := 4, method := 14 } :: List.replicate 7 {}, ke := some ⟨14⟩ }

/-- Claim C6 witness at concrete inputs. -/
theorem c6_success_iff_plan_done_witness :
    (additional_key_exchange_required st6w.key_exchanges st6w.ke_index = true ↔
      ∃ j s, st6w.ke_index ≤ j ∧ st6w.key_exchanges.get? j = some s ∧
        s.type ≠ 0 ∧ s.done = false) ∧
    ((key_exchange_done {} st6w [1] [2]).status = .SUCCESS ↔
      additional_key_exchange_required
        (key_exchange_done {} st6w [1] [2]).st.key_exchanges
        (key_exchange_done {} st6w [1] [2]).st.ke_index = false) ∧
    ((key_exchange_done {} st6w [1] [2]).status = .NEED_MORE ↔
      additional_key_exchange_required
        (key_exchange_done {} st6w [1] [2]).st.key_exchanges
        (key_exchange_done {} st6w [1] [2]).st.ke_index = true) ∧
    ((key_exchange_done {} st6w [1] [2]).status = .SUCCESS →
      (∀ j s, (key_exchange_done {} st6w [1] [2]).st.key_exchanges.get? j = some s →
        s.type ≠ 0 → s.done = true) ∧
      (key_exchange_done {} st6w [1] [2]).call.isSome = true) ∧
    (st6w.old_sa.isSome = true →
      (key_exchange_done {} st6w [1] [2]).status = .NEED_MORE →
      (key_exchange_done {} st6w [1] [2]).call = none) :=
  c6_success_iff_plan_done {} st6w [1] [2] (by decide) (by decide)
    (fun j s h _ => absurd h (Nat.not_lt_zero j)) rfl

/-- Claim C1: during rekeying the trigger appends the completed KE object to
kes; while further key exchanges are pending it defers derivation and
returns NEED_MORE; once none are pending it calls derive_ike_keys with the
full accumulated kes list, the nonces, the IKE_SA id and the PRF / SK_d
obtained from old_sa's keymat, and returns SUCCESS. -/
theorem c1_rekey_accumulate_then_derive (env : Env) (st : St) (osa : IkeSa)
    (k : KE) (ni nr : Chunk)
    (hold : st.old_sa = some osa) (hke : st.ke = some k)
    (hok : env.deriveOk = true) :
    (key_exchange_done env st ni nr).st.kes = st.kes ++ [k] ∧
    (additional_key_exchange_required (markDone st.key_exchanges st.ke_index)
        (st.ke_index + 1) = true →
      (key_exchange_done env st ni nr).status = .NEED_MORE ∧
      (key_exchange_done env st ni nr).call = none) ∧
    (additional_key_exchange_required (markDone st.key_exchanges st.ke_index)
        (st.ke_index + 1) = false →
      (key_exchange_done env st ni nr).status = .SUCCESS ∧
      (key_exchange_done env st ni nr).call =
        some { kes := st.kes ++ [k], nonce_i := ni, nonce_r := nr,
               saId := st.ike_sa.saId, prf_alg := osa.keymat.prf_alg,
               skd := osa.keymat.skd }) := by
  by_cases hA : additional_key_exchange_required
      (markDone st.key_exchanges st.ke_index) (st.ke_index + 1) = true
  · simp [key_exchange_done, derive_keys, hold, hke, hA, hok]
  · simp only [Bool.not_eq_true] at hA
    simp [key_exchange_done, derive_keys, hold, hke, hA, hok]

/-- Fixture for the C1 witness: rekeying with one additional key exchange. -/
def osa1w : IkeSa := { keymat := { prf_alg := 5, skd := [7, 7] } }

/-- Fixture state for the C1 witness: plan (4, 16) then (6, 35), cursor 0. -/
def st1w : St := { old_sa := some osa1w, ke := some ⟨16⟩, key_exchanges := { type := 4, method := 16 } :: { type := 6, method := 35 } :: List.replicate 6 {} }

/-- Fixture state for the C1 witness: same plan, first slot done, cursor 1. -/
def st1w2 : St := { st1w with key_exchanges := { type := 4, method := 16, done := true } :: { type := 6, method := 35 } :: List.replicate 6 {}, ke_index := 1, ke := some ⟨35⟩, kes := [⟨16⟩] }

/-- Claim C1 witness at concrete inputs (both the deferring round and the
final deriving round). -/
theorem c1_rekey_accumulate_then_derive_witness :
    ((key_exchange_done {} st1w [1] [2]).st.kes = st1w.kes ++ [⟨16⟩] ∧
      (additional_key_exchange_required (markDone st1w.key_exchanges st1w.ke_index)
          (st1w.ke_index + 1) = true →
        (key_exchange_done {} st1w [1] [2]).status = .NEED_MORE ∧
        (key_exchange_done {} st1w [1] [2]).call = none)) ∧
    ((key_exchange_done {} st1w2 [1] [2]).st.kes = st1w2.kes ++ [⟨35⟩] ∧
      (additional_key_exchange_required (markDone st1w2.key_exchanges st1w2.ke_index)
          (st1w2.ke_index + 1) = false →
        (key_exchange_done {} st1w2 [1] [2]).status = .SUCCESS ∧
        (key_exchange_done {} st1w2 [1] [2]).call =
          some { kes := st1w2.kes ++ [⟨35⟩], nonce_i := [1], nonce_r := [2],
                 saId := st1w2.ike_sa.saId, prf_alg := osa1w.keymat.prf_alg,
                 skd := osa1w.keymat.skd })) :=
  have h1 := c1_rekey_accumulate_then_derive {} st1w osa1w ⟨16⟩ [1] [2] rfl rfl rfl
  have h2 := c1_rekey_accumulate_then_derive {} st1w2 osa1w ⟨35⟩ [1] [2] rfl rfl rfl
  ⟨⟨h1.1, h1.2.1⟩, ⟨h2.1, h2.2.2⟩⟩

/-- Claim C2: for a fresh IKE_SA whose proposal carries no additional key
exchange, the trigger invoked after the single KE derives the keys from the
single-entry KE list holding the current KE object, the two nonces and the
IKE_SA id, with PRF_UNDEFINED and an empty SK_d (the fresh SA's own keymat
has not derived yet), and returns SUCCESS. -/
theorem c2_fresh_single_ke_derives (env : Env) (st : St) (p : Proposal) (k : KE)
    (m : Nat) (ni nr : Chunk)
    (hold : st.old_sa = none) (hke : st.ke = some k) (hkes : st.kes = [])
    (hidx : st.ke_index = 0)
    (hplan : st.key_exchanges = determine_key_exchanges zeroSlots p)
    (hprim : p.get_algorithm KEY_EXCHANGE_METHOD = some m)
    (hadd : ∀ j, j < 7 → p.get_algorithm (ADDITIONAL_KEY_EXCHANGE_1 + j) = none)
    (hfresh : st.ike_sa.keymat.prf_alg = PRF_UNDEFINED ∧ st.ike_sa.keymat.skd = [])
    (hok : env.deriveOk = true) :
    (key_exchange_done env st ni nr).status = .SUCCESS ∧
    (key_exchange_done env st ni nr).call =
      some { kes := [k], nonce_i := ni, nonce_r := nr, saId := st.ike_sa.saId,
             prf_alg := PRF_UNDEFINED, skd := [] } := by
  have hentries : planEntries p = [(KEY_EXCHANGE_METHOD, m)] := by
    unfold planEntries
    rw [hprim]
    congr 1
    rw [List.filterMap_eq_nil]
    intro j hj
    rw [hadd j (by simpa using hj)]
    rfl
  have hplan' : st.key_exchanges =
      { type := KEY_EXCHANGE_METHOD, method := m, done := false } ::
        List.replicate 7 {} := by
    rw [hplan]
    unfold determine_key_exchanges
    rw [hentries]
    rfl
  have hA : additional_key_exchange_required
      (markDone st.key_exchanges st.ke_index) (st.ke_index + 1) = false := by
    rw [hplan', hidx]
    simp [markDone, additional_key_exchange_required, List.replicate]
  simp [key_exchange_done, derive_keys, hold, hke, hkes, hA, hok, hfresh.1,
        hfresh.2]

/-- Fixture proposal for the C2 witness: single KE transform, group 14. -/
def p2w : Proposal := ⟨[(4, 14)]⟩

/-- Fixture state for the C2 witness: fresh SA, single-KE plan from p2w. -/
def st2w : St := { old_sa := none, ke := some ⟨14⟩, key_exchanges := determine_key_exchanges zeroSlots p2w, proposal := some p2w }

/-- Claim C2 witness at concrete inputs. -/
theorem c2_fresh_single_ke_derives_witness :
    (key_exchange_done {} st2w [1] [2]).status = .SUCCESS ∧
    (key_exchange_done {} st2w [1] [2]).call =
      some { kes := [⟨14⟩], nonce_i := [1], nonce_r := [2],
             saId := st2w.ike_sa.saId, prf_alg := PRF_UNDEFINED, skd := [] } :=
  c2_fresh_single_ke_derives {} st2w p2w ⟨14⟩ 14 [1] [2] rfl rfl rfl rfl rfl rfl
    (fun j hj => by
      interval_cases j <;> rfl)
    ⟨rfl, rfl⟩ rfl

end IkeInit
